import Mathlib

/-!
Shallow embedding of the PetFeeder web backend command queue and telemetry
endpoints, in both variants present in the source:

* `App` — the single-implicit-device variant (src/app.py with src/models.py):
  SQLAlchemy tables Schedule, FeedLog, SensorData, Command; the poll
  `GET /api/get_command` selects the Command row with the smallest id,
  deletes exactly that row and returns its text.
* `MainPy` — the multi-device variant (src/main.py): raw sqlite tables
  `commands` (device_id, command) and `feed_log`; the poll
  `GET /api/command/<device_id>` selects one matching row with `LIMIT 1`
  (no ORDER BY) and then runs `DELETE FROM commands WHERE device_id=?`.

Modelling conventions:

* Tables are lists of row structures kept in rowid/insertion order, with the
  auto-increment counter carried explicitly (sqlite and PostgreSQL serial
  columns start at 1).  Timestamp columns are elided: no endpoint in the
  source reads them (command ordering is by id).
* JSON/form payload fields are `Option String` — `none` models an absent
  field, the stored value is the raw opaque string the request carried.
* A handler is a pure function from the request payload and the store state
  to `HResp × State`.  `HResp.json body` is an HTTP 200 JSON response whose
  salient field has value `body`; `HResp.redirect` is the 302 a form post
  answers with; `HResp.err status` is an HTTP error response: 400 for a
  `request.form` missing-key `BadRequestKeyError`, 500 for an uncaught
  Python `KeyError` escaping the handler.
-/

namespace PetFeeder

/-- HTTP-level outcome of one request handler invocation. -/
inductive HResp where
  | json (body : String)
  | redirect (loc : String)
  | err (status : Nat)
deriving Repr, DecidableEq

/-- Row of the Command table (models.py class Command): integer primary key
and the opaque command text.  created_at is elided (never read). -/
structure CommandRow where
  id : Nat
  command : String
deriving Repr, DecidableEq

/-- Row of the Schedule table (models.py class Schedule). -/
structure ScheduleRow where
  id : Nat
  time : String
  portion : String
deriving Repr, DecidableEq

/-- Row of the FeedLog table (models.py class FeedLog); amount and result
are nullable, `none` models SQL NULL. -/
structure FeedLogRow where
  id : Nat
  amount : Option String
  result : Option String
deriving Repr, DecidableEq

/-- Row of the SensorData table (models.py class SensorData). -/
structure SensorRow where
  id : Nat
  level : Option String
deriving Repr, DecidableEq

/-- The relational store of the app.py variant: the four tables, each with
its auto-increment counter where the variant inserts rows. -/
structure AppState where
  schedules : List ScheduleRow
  feedLogs : List FeedLogRow
  sensorData : List SensorRow
  commands : List CommandRow
  nextCommandId : Nat
  nextFeedLogId : Nat
  nextSensorId : Nat
deriving Repr, DecidableEq

namespace App

/-- The empty store right after db.create_all(): every table empty, every
auto-increment counter at 1. -/
def empty : AppState :=
  { schedules := [], feedLogs := [], sensorData := [], commands := []
    nextCommandId := 1, nextFeedLogId := 1, nextSensorId := 1 }

end App

/-- Command.query.order_by(Command.id.asc()).first(): the row with the
smallest id, or none on an empty table.  Ties prefer the earlier row, but
ids are primary keys so reachable tables never tie. -/
def oldestRow : List CommandRow → Option CommandRow
  | [] => none
  | r :: rs =>
    match oldestRow rs with
    | none => some r
    | some m => if r.id ≤ m.id then some r else some m

namespace App

/-- GET /api/get_command (app.py lines 147-155): select the Command row with
the smallest id; if present, delete exactly that row, commit, and answer
200 with its text; otherwise answer 200 with the sentinel "none". -/
def get_command (s : AppState) : HResp × AppState :=
  match oldestRow s.commands with
  | some cmd =>
      (.json cmd.command,
       { s with commands := s.commands.filter (fun r => r.id ≠ cmd.id) })
  | none => (.json "none", s)

/-- POST /feed_now (app.py lines 179-185).  request.form["portion"] raises
BadRequestKeyError (HTTP 400) when the field is absent; otherwise the raw
string is interpolated into "feed:<portion>" with no validation, one row is
inserted, and the handler redirects to the index page. -/
def feed_now (portion : Option String) (s : AppState) : HResp × AppState :=
  match portion with
  | none => (.err 400, s)
  | some p =>
      (.redirect "index",
       { s with
          commands := s.commands ++ [{ id := s.nextCommandId, command := "feed:" ++ p }]
          nextCommandId := s.nextCommandId + 1 })

/-- POST /api/upload_log (app.py lines 158-164): appends one FeedLog row
unconditionally; data.get(...) turns absent payload fields into SQL NULL. -/
def upload_log (amount result : Option String) (s : AppState) : HResp × AppState :=
  (.json "log_saved",
   { s with
      feedLogs := s.feedLogs ++ [{ id := s.nextFeedLogId, amount := amount, result := result }]
      nextFeedLogId := s.nextFeedLogId + 1 })

/-- POST /api/update_level (app.py lines 167-173): appends one SensorData
row unconditionally, absent level stored as NULL. -/
def update_level (level : Option String) (s : AppState) : HResp × AppState :=
  (.json "level_updated",
   { s with
      sensorData := s.sensorData ++ [{ id := s.nextSensorId, level := level }]
      nextSensorId := s.nextSensorId + 1 })

/-- Modelled from the spec: the camera-toggle producer endpoint
(POST /api/camera/on|off, spec section 4.2 issueCameraToggle) is absent from
src/ — only the spec describes it.  Per the spec it enqueues the command
"camera_on" or "camera_off" for action in the set containing "on" and "off",
and fails with InvalidInput (HTTP 400), enqueueing nothing, for any other
action value. -/
def camera_toggle (action : String) (s : AppState) : HResp × AppState :=
  if action = "on" ∨ action = "off" then
    (.json ("camera_" ++ action),
     { s with
        commands := s.commands ++ [{ id := s.nextCommandId, command := "camera_" ++ action }]
        nextCommandId := s.nextCommandId + 1 })
  else (.err 400, s)

/-- One feed_now enqueue per portion string, left to right. -/
def feedAll (ps : List String) (s : AppState) : AppState :=
  match ps with
  | [] => s
  | p :: ps => feedAll ps (feed_now (some p) s).2

/-- n successive polls of GET /api/get_command, collecting the responses in
the order they were answered. -/
def pollAll : Nat → AppState → List HResp × AppState
  | 0, s => ([], s)
  | n + 1, s =>
    let r := get_command s
    let rest := pollAll n r.2
    (r.1 :: rest.1, rest.2)

end App

/-- The command rows feed_now creates for portions ps when the
auto-increment counter starts at n. -/
def feedRows : List String → Nat → List CommandRow
  | [], _ => []
  | p :: ps, n => { id := n, command := "feed:" ++ p } :: feedRows ps (n + 1)

/-- Row of the sqlite commands table of main.py: rowid (insertion order),
device_id and the command text. -/
structure McRow where
  rowid : Nat
  device_id : String
  command : String
deriving Repr, DecidableEq

/-- Row of the sqlite feed_log table of main.py as update_status inserts it:
device_id, weight, level (timestamp elided). -/
structure MainFeedRow where
  rowid : Nat
  device_id : String
  weight : String
  level : String
deriving Repr, DecidableEq

/-- The relational store of the main.py variant. -/
structure MainState where
  commands : List McRow
  feed_log : List MainFeedRow
  nextRowid : Nat
  nextLogRowid : Nat
deriving Repr, DecidableEq

namespace MainPy

/-- The empty sqlite store: both tables empty, rowids start at 1. -/
def empty : MainState :=
  { commands := [], feed_log := [], nextRowid := 1, nextLogRowid := 1 }

/-- GET /api/command/<device_id> (main.py lines 20-28).
SELECT command FROM commands WHERE device_id=? LIMIT 1 carries no ORDER BY;
we model sqlite's full-table-scan order, i.e. rowid (insertion) order, so
the first matching row of the list is returned.  If a row is found the code
then runs DELETE FROM commands WHERE device_id=? — removing EVERY pending
row of that device, not only the returned one — commits, and answers 200
with the selected text; otherwise it answers 200 with "none". -/
def get_command (device_id : String) (s : MainState) : HResp × MainState :=
  match (s.commands.filter (fun r => r.device_id == device_id)).head? with
  | some cmd =>
      (.json cmd.command,
       { s with commands := s.commands.filter (fun r => r.device_id ≠ device_id) })
  | none => (.json "none", s)

/-- POST /api/send_command (main.py lines 30-36).  The handler reads
data["device_id"] and data["command"] with bracket access: a missing field
raises KeyError before the INSERT runs, surfacing as HTTP 500; with both
present one row is inserted and the handler answers 200 with status ok. -/
def send_command (device_id command : Option String) (s : MainState) :
    HResp × MainState :=
  match device_id, command with
  | some d, some c =>
      (.json "ok",
       { s with
          commands := s.commands ++ [{ rowid := s.nextRowid, device_id := d, command := c }]
          nextRowid := s.nextRowid + 1 })
  | _, _ => (.err 500, s)

/-- POST /api/update (main.py lines 39-48).  Bracket access to
data["device_id"], data["weight"], data["level"]: any missing field raises
KeyError (HTTP 500) before the INSERT; with all present one feed_log row is
appended and the handler answers 200 with status received. -/
def update_status (device_id weight level : Option String) (s : MainState) :
    HResp × MainState :=
  match device_id, weight, level with
  | some d, some w, some l =>
      (.json "received",
       { s with
          feed_log := s.feed_log ++
            [{ rowid := s.nextLogRowid, device_id := d, weight := w, level := l }]
          nextLogRowid := s.nextLogRowid + 1 })
  | _, _, _ => (.err 500, s)

end MainPy

/-- The main.py store after send_command of "A" then "B" for device dev1,
starting empty: the failing input for the queue claims. -/
def mainAB : MainState :=
  (MainPy.send_command (some "dev1") (some "B")
    (MainPy.send_command (some "dev1") (some "A") MainPy.empty).2).2

/-- A row the oldest-row query returns is a row of the table. -/
theorem oldestRow_mem {l : List CommandRow} {r : CommandRow}
    (h : oldestRow l = some r) : r ∈ l := by
  induction l with
  | nil => simp [oldestRow] at h
  | cons a as ih =>
    cases hm : oldestRow as with
    | none => simp [oldestRow, hm] at h; simp [h]
    | some m =>
      by_cases hle : a.id ≤ m.id
      · simp [oldestRow, hm, hle] at h
        simp [h]
      · simp [oldestRow, hm, hle] at h
        subst h
        exact List.mem_cons_of_mem _ (ih hm)

/-- C1: in the main.py variant the FIFO delivery guarantee fails: after the
two enqueues of "A" then "B" for device dev1 on the empty store, the first
poll returns "A" but its DELETE removes every row of the device, so the
second poll returns "none" instead of "B". -/
theorem C1_mainpy_fifo_broken :
    (MainPy.get_command "dev1" mainAB).1 = HResp.json "A" ∧
    (MainPy.get_command "dev1" (MainPy.get_command "dev1" mainAB).2).1 =
      HResp.json "none" ∧
    (MainPy.get_command "dev1" (MainPy.get_command "dev1" mainAB).2).1 ≠
      HResp.json "B" := by
  decide

/-- C2: in the main.py variant a poll removes commands it never returned:
with "A" and "B" pending for dev1, one poll returns only "A" yet leaves the
commands table empty — "B" is lost without ever being delivered. -/
theorem C2_mainpy_removes_undelivered :
    mainAB.commands.map (fun r => r.command) = ["A", "B"] ∧
    (MainPy.get_command "dev1" mainAB).1 = HResp.json "A" ∧
    (MainPy.get_command "dev1" mainAB).2.commands = [] := by
  decide

/-- C3: in the main.py variant a successful pop does not remove exactly the
returned row: enqueue "A" then "B", one poll returns "A" but the store
retains zero pending rows, not the one row "B" the claim requires. -/
theorem C3_mainpy_pop_deletes_all :
    (MainPy.get_command "dev1" mainAB).1 = HResp.json "A" ∧
    (MainPy.get_command "dev1" mainAB).2.commands.length = 0 ∧
    (MainPy.get_command "dev1" mainAB).2.commands.length ≠ 1 := by
  decide

/-- C4: polling an empty scope succeeds (HTTP 200) with the literal sentinel
"none" and leaves the store completely unchanged, in both variants; and in
general every poll answers 200 with either "none" or the text of a pending
command of the polled store. -/
theorem C4_poll_none_is_steady_state :
    (∀ s : AppState, s.commands = [] → App.get_command s = (.json "none", s)) ∧
    (∀ (d : String) (s : MainState),
        s.commands.filter (fun r => r.device_id == d) = [] →
        MainPy.get_command d s = (.json "none", s)) ∧
    (∀ s : AppState,
        (App.get_command s).1 = HResp.json "none" ∨
        ∃ r ∈ s.commands, (App.get_command s).1 = HResp.json r.command) ∧
    (∀ (d : String) (s : MainState),
        (MainPy.get_command d s).1 = HResp.json "none" ∨
        ∃ r ∈ s.commands, (MainPy.get_command d s).1 = HResp.json r.command) := by
  refine ⟨?_, ?_, ?_, ?_⟩
  · intro s h
    simp [App.get_command, h, oldestRow]
  · intro d s h
    simp [MainPy.get_command, h]
  · intro s
    cases hm : oldestRow s.commands with
    | none => left; simp [App.get_command, hm]
    | some r =>
      right
      exact ⟨r, oldestRow_mem hm, by simp [App.get_command, hm]⟩
  · intro d s
    cases hm : (s.commands.filter (fun r => r.device_id == d)).head? with
    | none => left; simp [MainPy.get_command, hm]
    | some r =>
      right
      refine ⟨r, ?_, by simp [MainPy.get_command, hm]⟩
      exact (List.mem_filter.mp (List.mem_of_mem_head? hm)).1

/-- Witness for C4 at the empty stores of both variants. -/
theorem C4_witness :
    App.get_command App.empty = (.json "none", App.empty) ∧
    MainPy.get_command "dev1" MainPy.empty = (.json "none", MainPy.empty) :=
  ⟨C4_poll_none_is_steady_state.1 App.empty rfl,
   C4_poll_none_is_steady_state.2.1 "dev1" MainPy.empty rfl⟩

/-- C6: for every action other than "on" or "off" the (spec-modelled) camera
toggle fails with InvalidInput (HTTP 400) and enqueues nothing: the whole
store, and in particular the command row count, is unchanged. -/
theorem C6_camera_invalid_action (action : String) (s : AppState)
    (h1 : action ≠ "on") (h2 : action ≠ "off") :
    App.camera_toggle action s = (.err 400, s) ∧
    (App.camera_toggle action s).2.commands.length = s.commands.length := by
  have hor : ¬(action = "on" ∨ action = "off") := by tauto
  refine ⟨?_, ?_⟩ <;> simp [App.camera_toggle, hor]

/-- Witness for C6 at action "up" on the empty store. -/
theorem C6_witness :
    App.camera_toggle "up" App.empty = (.err 400, App.empty) ∧
    (App.camera_toggle "up" App.empty).2.commands.length =
      App.empty.commands.length :=
  C6_camera_invalid_action "up" App.empty (by decide) (by decide)

/-- C7 counterexample: "abc" is not a well-formed positive number, yet
feed_now does not fail with InvalidInput: it succeeds (redirect) and
enqueues the row "feed:abc" — the handler performs no numeric validation. -/
theorem C7_counterexample :
    "abc".data.all (fun c => c.isDigit) = false ∧
    (App.feed_now (some "abc") App.empty).1 = HResp.redirect "index" ∧
    (App.feed_now (some "abc") App.empty).2.commands =
      [{ id := 1, command := "feed:abc" }] := by
  refine ⟨by decide, rfl, rfl⟩

/-- C7 amended: feed_now fails (BadRequestKeyError, HTTP 400, store
unchanged) exactly when the portion form field is absent; any present
portion string — well-formed number or not — is accepted, and exactly one
command row with text "feed:" followed by the raw string is appended. -/
theorem C7_feed_now_amended (portion : Option String) (s : AppState) :
    (portion = none → App.feed_now portion s = (.err 400, s)) ∧
    (∀ p, portion = some p →
      (App.feed_now portion s).1 = HResp.redirect "index" ∧
      (App.feed_now portion s).2.commands =
        s.commands ++ [{ id := s.nextCommandId, command := "feed:" ++ p }]) := by
  refine ⟨?_, ?_⟩
  · intro h
    subst h
    rfl
  · intro p h
    subst h
    exact ⟨rfl, rfl⟩

/-- Witness for C7 amended at portion "30" on the empty store. -/
theorem C7_witness :
    (App.feed_now (some "30") App.empty).1 = HResp.redirect "index" ∧
    (App.feed_now (some "30") App.empty).2.commands =
      App.empty.commands ++
        [{ id := App.empty.nextCommandId, command := "feed:" ++ "30" }] :=
  (C7_feed_now_amended (some "30") App.empty).2 "30" rfl

/-- C8 counterexample: with the command field missing, send_command does not
fail with InvalidInput (HTTP 400): the bracket access raises KeyError, an
uncaught exception surfacing as HTTP 500. -/
theorem C8_counterexample :
    MainPy.send_command (some "dev1") none MainPy.empty =
      (.err 500, MainPy.empty) ∧
    HResp.err 500 ≠ HResp.err 400 := by
  exact ⟨rfl, by decide⟩

/-- C8 amended: send_command fails — with an uncaught KeyError surfacing as
HTTP 500, not a 400 InvalidInput — whenever device_id or command is missing,
leaving the store unchanged; it enqueues exactly one row exactly when both
are present. -/
theorem C8_send_command_amended (d c : Option String) (s : MainState) :
    ((d = none ∨ c = none) → MainPy.send_command d c s = (.err 500, s)) ∧
    (∀ dv cv, d = some dv → c = some cv →
      MainPy.send_command d c s =
        (.json "ok",
         { s with
            commands := s.commands ++
              [{ rowid := s.nextRowid, device_id := dv, command := cv }]
            nextRowid := s.nextRowid + 1 })) := by
  refine ⟨?_, ?_⟩
  · intro h
    cases d with
    | none => cases c <;> rfl
    | some dv =>
      cases c with
      | none => rfl
      | some cv => rcases h with h | h <;> simp at h
  · intro dv cv hd hc
    subst hd
    subst hc
    rfl

/-- Witness for C8 amended: both fields present enqueue one row. -/
theorem C8_witness :
    MainPy.send_command (some "dev1") (some "feed:30") MainPy.empty =
      (.json "ok",
       { MainPy.empty with
          commands := MainPy.empty.commands ++
            [{ rowid := MainPy.empty.nextRowid, device_id := "dev1",
               command := "feed:30" }]
          nextRowid := MainPy.empty.nextRowid + 1 }) :=
  (C8_send_command_amended (some "dev1") (some "feed:30") MainPy.empty).2
    "dev1" "feed:30" rfl rfl

/-- C9 counterexample: a telemetry request to the main.py update endpoint
with the level field missing is not stored with nulls: the bracket access
raises KeyError (HTTP 500) and no feed_log row is appended. -/
theorem C9_counterexample :
    MainPy.update_status (some "dev1") (some "5") none MainPy.empty =
      (.err 500, MainPy.empty) ∧
    (MainPy.update_status (some "dev1") (some "5") none MainPy.empty).2.feed_log
      = [] := by
  exact ⟨rfl, rfl⟩

/-- C9 amended: the app.py telemetry endpoints (upload_log, update_level)
append exactly one row and acknowledge success on every request, storing
absent fields as NULL; the main.py update endpoint instead raises KeyError
(HTTP 500) and appends nothing whenever device_id, weight or level is
missing, appending one row only when all three are present. -/
theorem C9_telemetry_amended :
    (∀ (amount result : Option String) (s : AppState),
      App.upload_log amount result s =
        (.json "log_saved",
         { s with
            feedLogs := s.feedLogs ++
              [{ id := s.nextFeedLogId, amount := amount, result := result }]
            nextFeedLogId := s.nextFeedLogId + 1 })) ∧
    (∀ (level : Option String) (s : AppState),
      App.update_level level s =
        (.json "level_updated",
         { s with
            sensorData := s.sensorData ++ [{ id := s.nextSensorId, level := level }]
            nextSensorId := s.nextSensorId + 1 })) ∧
    (∀ (d w l : Option String) (s : MainState),
      ((d = none ∨ w = none ∨ l = none) →
        MainPy.update_status d w l s = (.err 500, s)) ∧
      (∀ dv wv lv, d = some dv → w = some wv → l = some lv →
        MainPy.update_status d w l s =
          (.json "received",
           { s with
              feed_log := s.feed_log ++
                [{ rowid := s.nextLogRowid, device_id := dv, weight := wv,
                   level := lv }]
              nextLogRowid := s.nextLogRowid + 1 }))) := by
  refine ⟨fun _ _ _ => rfl, fun _ _ => rfl, fun d w l s => ⟨?_, ?_⟩⟩
  · intro h
    cases d with
    | none => cases w <;> cases l <;> rfl
    | some dv =>
      cases w with
      | none => cases l <;> rfl
      | some wv =>
        cases l with
        | none => rfl
        | some lv => rcases h with h | h | h <;> simp at h
  · intro dv wv lv hd hw hl
    subst hd
    subst hw
    subst hl
    rfl

/-- Witness for C9 amended: a complete main.py update appends one row. -/
theorem C9_witness :
    MainPy.update_status (some "dev1") (some "5") (some "80") MainPy.empty =
      (.json "received",
       { MainPy.empty with
          feed_log := MainPy.empty.feed_log ++
            [{ rowid := MainPy.empty.nextLogRowid, device_id := "dev1",
               weight := "5", level := "80" }]
          nextLogRowid := MainPy.empty.nextLogRowid + 1 }) :=
  (C9_telemetry_amended.2.2 (some "dev1") (some "5") (some "80")
      MainPy.empty).2 "dev1" "5" "80" rfl rfl rfl

/-- C10: every command-queue operation of both variants — feed_now and
get_command in app.py, send_command and get_command in main.py — leaves all
non-command tables (Schedule, FeedLog, SensorData, feed_log) exactly as they
were, for every starting state and input. -/
theorem C10_queue_ops_frame :
    (∀ (portion : Option String) (s : AppState),
      (App.feed_now portion s).2.schedules = s.schedules ∧
      (App.feed_now portion s).2.feedLogs = s.feedLogs ∧
      (App.feed_now portion s).2.sensorData = s.sensorData) ∧
    (∀ s : AppState,
      (App.get_command s).2.schedules = s.schedules ∧
      (App.get_command s).2.feedLogs = s.feedLogs ∧
      (App.get_command s).2.sensorData = s.sensorData) ∧
    (∀ (d c : Option String) (s : MainState),
      (MainPy.send_command d c s).2.feed_log = s.feed_log) ∧
    (∀ (d : String) (s : MainState),
      (MainPy.get_command d s).2.feed_log = s.feed_log) := by
  refine ⟨?_, ?_, ?_, ?_⟩
  · intro portion s
    cases portion <;> exact ⟨rfl, rfl, rfl⟩
  · intro s
    cases hm : oldestRow s.commands <;> simp [App.get_command, hm]
  · intro d c s
    cases d <;> cases c <;> rfl
  · intro d s
    cases hm : (s.commands.filter (fun r => r.device_id == d)).head? <;>
      simp [MainPy.get_command, hm]

/-- If the head row has the smallest id, the oldest-row query returns it. -/
theorem oldestRow_cons_min (r : CommandRow) (rs : List CommandRow)
    (hmin : ∀ x ∈ rs, r.id ≤ x.id) :
    oldestRow (r :: rs) = some r := by
  cases hm : oldestRow rs with
  | none => simp [oldestRow, hm]
  | some m =>
    have hle : r.id ≤ m.id := hmin m (oldestRow_mem hm)
    simp [oldestRow, hm, hle]

/-- On a table whose head row strictly precedes all others by id, a poll
returns the head's text and deletes exactly the head row. -/
theorem get_command_cons (sch : List ScheduleRow) (fl : List FeedLogRow)
    (sd : List SensorRow) (r : CommandRow) (rs : List CommandRow)
    (nc nf ns : Nat)
    (hp : (r :: rs).Pairwise (fun a b => a.id < b.id)) :
    App.get_command ⟨sch, fl, sd, r :: rs, nc, nf, ns⟩ =
      (.json r.command, ⟨sch, fl, sd, rs, nc, nf, ns⟩) := by
  have hmin : ∀ x ∈ rs, r.id < x.id := (List.pairwise_cons.mp hp).1
  have holdest : oldestRow (r :: rs) = some r :=
    oldestRow_cons_min r rs (fun x hx => Nat.le_of_lt (hmin x hx))
  have hfilter : (r :: rs).filter (fun x => x.id ≠ r.id) = rs := by
    rw [List.filter_cons_of_neg (by simp), List.filter_eq_self]
    intro x hx
    simpa using (Nat.ne_of_lt (hmin x hx)).symm
  simp only [App.get_command, holdest, hfilter]

/-- Every row feedRows creates from counter n has id at least n. -/
theorem feedRows_id_ge (ps : List String) (n : Nat) :
    ∀ r ∈ feedRows ps n, n ≤ r.id := by
  induction ps generalizing n with
  | nil => intro r hr; simp [feedRows] at hr
  | cons p ps ih =>
    intro r hr
    rcases (by simpa [feedRows] using hr :
        r = ({ id := n, command := "feed:" ++ p } : CommandRow) ∨
          r ∈ feedRows ps (n + 1)) with h | h
    · subst h; exact Nat.le_refl n
    · exact Nat.le_of_succ_le (ih (n + 1) r h)

/-- The rows feedRows creates carry strictly increasing ids. -/
theorem feedRows_mono (ps : List String) (n : Nat) :
    (feedRows ps n).Pairwise (fun a b => a.id < b.id) := by
  induction ps generalizing n with
  | nil => simp [feedRows]
  | cons p ps ih =>
    refine List.pairwise_cons.mpr ⟨?_, ih (n + 1)⟩
    intro r hr
    exact Nat.lt_of_lt_of_le (Nat.lt_succ_self n) (feedRows_id_ge ps (n + 1) r hr)

/-- feedRows creates one row per portion. -/
theorem feedRows_length (ps : List String) (n : Nat) :
    (feedRows ps n).length = ps.length := by
  induction ps generalizing n with
  | nil => rfl
  | cons p ps ih => simp [feedRows, ih]

/-- The texts of the rows feedRows creates, in order. -/
theorem feedRows_map (ps : List String) (n : Nat) :
    (feedRows ps n).map (fun r => HResp.json r.command) =
      ps.map (fun p => HResp.json ("feed:" ++ p)) := by
  induction ps generalizing n with
  | nil => rfl
  | cons p ps ih => simp [feedRows, ih]

/-- Enqueueing portions ps appends their rows with consecutive ids starting
at the auto-increment counter, which advances by the number of rows. -/
theorem feedAll_builds (ps : List String) (sch : List ScheduleRow)
    (fl : List FeedLogRow) (sd : List SensorRow) (l : List CommandRow)
    (nc nf ns : Nat) :
    App.feedAll ps ⟨sch, fl, sd, l, nc, nf, ns⟩ =
      ⟨sch, fl, sd, l ++ feedRows ps nc, nc + ps.length, nf, ns⟩ := by
  induction ps generalizing l nc with
  | nil => simp [App.feedAll, feedRows]
  | cons p ps ih =>
    show App.feedAll ps
        ⟨sch, fl, sd, l ++ [{ id := nc, command := "feed:" ++ p }], nc + 1, nf, ns⟩ = _
    rw [ih]
    simp [feedRows, List.append_assoc]
    omega

/-- Draining a table with strictly increasing ids by as many polls as it has
rows returns every text in table order and empties the table. -/
theorem pollAll_drains (l : List CommandRow) (sch : List ScheduleRow)
    (fl : List FeedLogRow) (sd : List SensorRow) (nc nf ns : Nat)
    (hp : l.Pairwise (fun a b => a.id < b.id)) :
    App.pollAll l.length ⟨sch, fl, sd, l, nc, nf, ns⟩ =
      (l.map (fun r => HResp.json r.command), ⟨sch, fl, sd, [], nc, nf, ns⟩) := by
  induction l with
  | nil => rfl
  | cons r rs ih =>
    have hpop := get_command_cons sch fl sd r rs nc nf ns hp
    simp [App.pollAll, hpop, ih (List.Pairwise.of_cons hp)]

/-- FIFO in the app.py variant: from the empty store, N feed_now enqueues
followed by N polls return the N command texts in exactly the order they
were enqueued, and leave the command table empty. -/
theorem app_fifo (ps : List String) :
    App.pollAll ps.length (App.feedAll ps App.empty) =
      (ps.map (fun p => HResp.json ("feed:" ++ p)),
       ⟨[], [], [], [], 1 + ps.length, 1, 1⟩) := by
  have hb : App.feedAll ps App.empty =
      ⟨[], [], [], feedRows ps 1, 1 + ps.length, 1, 1⟩ :=
    feedAll_builds ps [] [] [] [] 1 1 1
  rw [hb]
  have hd := pollAll_drains (feedRows ps 1) [] [] [] (1 + ps.length) 1 1
    (feedRows_mono ps 1)
  rw [feedRows_length] at hd
  rw [hd, feedRows_map]

end PetFeeder
